import Mathlib

/-!
Verification of the event classification, deduplication and multi-window
aggregation core of `src/forex_calendar_filter.py`.

The Python module matches event text against a fixed list of regular
expressions built only from literal characters, `\s*`, `\s+` and `\b`.
We embed exactly that regex subset as `RTok` lists and give it Python
`re.search` semantics (a match may start at any position; `\s*` / `\s+`
quantifiers are existential over the number of consumed whitespace
characters, which coincides with greedy-with-backtracking semantics for a
boolean result; `\b` holds where exactly one side of the position is a
word character).  Texts in this repository are ASCII, so `\s`, `\w` and
`str.lower` are modelled on their ASCII behaviour.
-/

/-- Token of the regex subset used by the Python module: a literal
character, `\s*`, `\s+`, or the word boundary `\b`. -/
inductive RTok : Type
  | lit (c : Char)
  | wsStar
  | wsPlus
  | wb
deriving DecidableEq

/-- Python `\s` on ASCII text: space, tab, newline, carriage return,
vertical tab, form feed. -/
def isPySpace (c : Char) : Bool :=
  c == ' ' || c == '\t' || c == '\n' || c == '\r' || c == '\x0b' || c == '\x0c'

/-- Python `\w` on ASCII text: letters, digits, underscore. -/
def isWordChar (c : Char) : Bool :=
  c.isAlphanum || c == '_'

/-- Whether the character just before the current position (none at the
start of the text) is a word character. -/
def isWordOpt : Option Char → Bool
  | none => false
  | some c => isWordChar c

/-- Whether the text ahead begins with a word character (false at the end
of the text). -/
def headWord : List Char → Bool
  | [] => false
  | c :: _ => isWordChar c

/-- All positions reachable from the current one by consuming zero or more
whitespace characters, each paired with the character preceding it. -/
def spaceSuffixes : List Char → Option Char → List (Option Char × List Char)
  | [], prev => [(prev, [])]
  | c :: rest, prev =>
      (prev, c :: rest) :: (if isPySpace c then spaceSuffixes rest (some c) else [])

/-- Does the token list match a prefix of `cs`?  `prev` is the character
just before `cs` in the full text (for `\b`). -/
def matchFrom : List RTok → Option Char → List Char → Bool
  | [], _, _ => true
  | RTok.lit _ :: _, _, [] => false
  | RTok.lit c :: ts, _, d :: cs => d == c && matchFrom ts (some d) cs
  | RTok.wsStar :: ts, prev, cs =>
      (spaceSuffixes cs prev).any (fun pc => matchFrom ts pc.1 pc.2)
  | RTok.wsPlus :: _, _, [] => false
  | RTok.wsPlus :: ts, _, c :: cs =>
      isPySpace c && (spaceSuffixes cs (some c)).any (fun pc => matchFrom ts pc.1 pc.2)
  | RTok.wb :: ts, prev, cs =>
      (isWordOpt prev != headWord cs) && matchFrom ts prev cs

/-- Scan of all start positions: `searchAux toks prev cs` holds when the
pattern matches starting at some position of `cs` (`prev` being the
character before `cs`). -/
def searchAux (toks : List RTok) : Option Char → List Char → Bool
  | prev, [] => matchFrom toks prev []
  | prev, c :: cs => matchFrom toks prev (c :: cs) || searchAux toks (some c) cs

/-- Model of Python `re.search(pattern, s) is not None` for the regex
subset used by the module. -/
def reSearch (toks : List RTok) (s : String) : Bool :=
  searchAux toks none s.data

/-- Literal part of a pattern. -/
def rlit (s : String) : List RTok := s.data.map RTok.lit

/-- `RED_FOLDER_PATTERNS` of the source: `impact:\s*high`, `high\s*impact`,
`red\s*folder`, `red\s*impact`, `\bred\b`. -/
def RED_FOLDER_PATTERNS : List (List RTok) := [
  rlit "impact:" ++ [RTok.wsStar] ++ rlit "high",
  rlit "high" ++ [RTok.wsStar] ++ rlit "impact",
  rlit "red" ++ [RTok.wsStar] ++ rlit "folder",
  rlit "red" ++ [RTok.wsStar] ++ rlit "impact",
  [RTok.wb] ++ rlit "red" ++ [RTok.wb]
]

/-- `MEDIUM_IMPACT_PATTERNS` of the source (present in the module; not
consulted by `should_include_event`). -/
def MEDIUM_IMPACT_PATTERNS : List (List RTok) := [
  rlit "impact:" ++ [RTok.wsStar] ++ rlit "medium",
  rlit "medium" ++ [RTok.wsStar] ++ rlit "impact",
  rlit "yellow" ++ [RTok.wsStar] ++ rlit "folder",
  rlit "orange" ++ [RTok.wsStar] ++ rlit "folder",
  [RTok.wb] ++ rlit "yellow" ++ [RTok.wb],
  [RTok.wb] ++ rlit "orange" ++ [RTok.wb]
]

/-- `VIP_KEYWORDS` of the source: `\btrump\b`, `\bfomc\b`, `\bopec\b`,
`president\s+lagarde`, `lagarde\b`, `gov\s+bailey`, `governor\s+bailey`,
`\bbailey\b`.  Note `lagarde\b` has no leading `\b`. -/
def VIP_KEYWORDS : List (List RTok) := [
  [RTok.wb] ++ rlit "trump" ++ [RTok.wb],
  [RTok.wb] ++ rlit "fomc" ++ [RTok.wb],
  [RTok.wb] ++ rlit "opec" ++ [RTok.wb],
  rlit "president" ++ [RTok.wsPlus] ++ rlit "lagarde",
  rlit "lagarde" ++ [RTok.wb],
  rlit "gov" ++ [RTok.wsPlus] ++ rlit "bailey",
  rlit "governor" ++ [RTok.wsPlus] ++ rlit "bailey",
  [RTok.wb] ++ rlit "bailey" ++ [RTok.wb]
]

/-- An icalendar VEVENT as consulted by the module: optional `summary`,
`description`, `dtstart` (its text rendering `str(...)`), `location`, and
`uid`. -/
structure EventRecord where
  summary : Option String
  description : Option String
  dtstart : Option String
  location : Option String
  uid : Option String
deriving DecidableEq

/-- Python `str.lower` on ASCII text. -/
def pyLower (s : String) : String := ⟨s.data.map Char.toLower⟩

/-- The `text_to_check` string built by `is_red_folder_event` and
`is_vip_keyword_event`: each present field contributes its text followed
by one space, an absent field contributes nothing. -/
def text_to_check (e : EventRecord) : String :=
  (match e.summary with | some s => s ++ " " | none => "")
    ++ (match e.description with | some d => d ++ " " | none => "")

/-- `is_red_folder_event` of the source: does any red folder pattern match
the lower-cased event text? -/
def is_red_folder_event (e : EventRecord) : Bool :=
  RED_FOLDER_PATTERNS.any (fun p => reSearch p (pyLower (text_to_check e)))

/-- `is_vip_keyword_event` of the source: does any VIP keyword pattern
match the lower-cased event text? -/
def is_vip_keyword_event (e : EventRecord) : Bool :=
  VIP_KEYWORDS.any (fun p => reSearch p (pyLower (text_to_check e)))

/-- `should_include_event` of the source: red folder events first, then
any VIP keyword event, regardless of impact level. -/
def should_include_event (e : EventRecord) : Bool :=
  is_red_folder_event e || is_vip_keyword_event e

/-- Classification verdict of the spec, derived from the source's tier
order: red folder first, then VIP keyword, otherwise plain. -/
inductive Verdict : Type
  | RedFolder
  | VipKeyword
  | Plain
deriving DecidableEq

/-- Verdict of an event under the source's tier order. -/
def classify (e : EventRecord) : Verdict :=
  if is_red_folder_event e then Verdict.RedFolder
  else if is_vip_keyword_event e then Verdict.VipKeyword
  else Verdict.Plain

/-- UTF-8 encoding of one character, as a list of byte values. -/
def utf8EncodeChar (c : Char) : List Nat :=
  let n := c.toNat
  if n < 128 then [n]
  else if n < 2048 then [192 + n / 64, 128 + n % 64]
  else if n < 65536 then [224 + n / 4096, 128 + n / 64 % 64, 128 + n % 64]
  else [240 + n / 262144, 128 + n / 4096 % 64, 128 + n / 64 % 64, 128 + n % 64]

/-- UTF-8 encoding of a string (Python `str.encode()`), as byte values. -/
def utf8Encode (s : String) : List Nat :=
  (s.data.map utf8EncodeChar).flatten

/-- Two to the thirty-second power, the modulus of 32-bit arithmetic. -/
def M32 : Nat := 4294967296

/-- Bitwise AND restricted to 32 bits, computed digit by digit. -/
def bitAnd32 : Nat → Nat → Nat → Nat
  | 0, _, _ => 0
  | f + 1, x, y => x % 2 * (y % 2) + 2 * bitAnd32 f (x / 2) (y / 2)

/-- Bitwise OR restricted to 32 bits, computed digit by digit. -/
def bitOr32 : Nat → Nat → Nat → Nat
  | 0, _, _ => 0
  | f + 1, x, y => (x % 2 + y % 2 - x % 2 * (y % 2)) + 2 * bitOr32 f (x / 2) (y / 2)

/-- Bitwise XOR restricted to 32 bits, computed digit by digit. -/
def bitXor32 : Nat → Nat → Nat → Nat
  | 0, _, _ => 0
  | f + 1, x, y => (x % 2 + y % 2) % 2 + 2 * bitXor32 f (x / 2) (y / 2)

/-- 32-bit AND. -/
def land32 (x y : Nat) : Nat := bitAnd32 32 x y

/-- 32-bit OR. -/
def lor32 (x y : Nat) : Nat := bitOr32 32 x y

/-- 32-bit XOR. -/
def lxor32 (x y : Nat) : Nat := bitXor32 32 x y

/-- 32-bit complement of a value below `M32`. -/
def not32 (x : Nat) : Nat := 4294967295 - x

/-- Left rotation of a 32-bit value. -/
def rotl32 (x n : Nat) : Nat := (x * 2 ^ n) % M32 + x / 2 ^ (32 - n)

/-- The MD5 sine table `T[1..64]` of RFC 1321. -/
def md5K : List Nat := [
  0xd76aa478, 0xe8c7b756, 0x242070db, 0xc1bdceee,
  0xf57c0faf, 0x4787c62a, 0xa8304613, 0xfd469501,
  0x698098d8, 0x8b44f7af, 0xffff5bb1, 0x895cd7be,
  0x6b901122, 0xfd987193, 0xa679438e, 0x49b40821,
  0xf61e2562, 0xc040b340, 0x265e5a51, 0xe9b6c7aa,
  0xd62f105d, 0x02441453, 0xd8a1e681, 0xe7d3fbc8,
  0x21e1cde6, 0xc33707d6, 0xf4d50d87, 0x455a14ed,
  0xa9e3e905, 0xfcefa3f8, 0x676f02d9, 0x8d2a4c8a,
  0xfffa3942, 0x8771f681, 0x6d9d6122, 0xfde5380c,
  0xa4beea44, 0x4bdecfa9, 0xf6bb4b60, 0xbebfbc70,
  0x289b7ec6, 0xeaa127fa, 0xd4ef3085, 0x04881d05,
  0xd9d4d039, 0xe6db99e5, 0x1fa27cf8, 0xc4ac5665,
  0xf4292244, 0x432aff97, 0xab9423a7, 0xfc93a039,
  0x655b59c3, 0x8f0ccc92, 0xffeff47d, 0x85845dd1,
  0x6fa87e4f, 0xfe2ce6e0, 0xa3014314, 0x4e0811a1,
  0xf7537e82, 0xbd3af235, 0x2ad7d2bb, 0xeb86d391
]

/-- The MD5 per-round left-rotation amounts. -/
def md5S : List Nat := [
  7, 12, 17, 22, 7, 12, 17, 22, 7, 12, 17, 22, 7, 12, 17, 22,
  5, 9, 14, 20, 5, 9, 14, 20, 5, 9, 14, 20, 5, 9, 14, 20,
  4, 11, 16, 23, 4, 11, 16, 23, 4, 11, 16, 23, 4, 11, 16, 23,
  6, 10, 15, 21, 6, 10, 15, 21, 6, 10, 15, 21, 6, 10, 15, 21
]

/-- One MD5 round applied to the running state `(a, b, c, d)` with the
message words `m` of the current chunk. -/
def md5Round (m : List Nat) (st : Nat × Nat × Nat × Nat) (i : Nat) : Nat × Nat × Nat × Nat :=
  let a := st.1
  let b := st.2.1
  let c := st.2.2.1
  let d := st.2.2.2
  let f :=
    if i < 16 then lor32 (land32 b c) (land32 (not32 b) d)
    else if i < 32 then lor32 (land32 b d) (land32 c (not32 d))
    else if i < 48 then lxor32 (lxor32 b c) d
    else lxor32 c (lor32 b (not32 d))
  let g :=
    if i < 16 then i
    else if i < 32 then (5 * i + 1) % 16
    else if i < 48 then (3 * i + 5) % 16
    else (7 * i) % 16
  let tmp := (a + f + md5K.getD i 0 + m.getD g 0) % M32
  (d, (b + rotl32 tmp (md5S.getD i 0)) % M32, b, c)

/-- One 512-bit MD5 chunk: 64 rounds followed by the feed-forward sums. -/
def md5Chunk (st : Nat × Nat × Nat × Nat) (m : List Nat) : Nat × Nat × Nat × Nat :=
  let r := (List.range 64).foldl (md5Round m) st
  ((st.1 + r.1) % M32, (st.2.1 + r.2.1) % M32, (st.2.2.1 + r.2.2.1) % M32, (st.2.2.2 + r.2.2.2) % M32)

/-- Little-endian bytes of a 32-bit word. -/
def le4 (x : Nat) : List Nat := [x % 256, x / 256 % 256, x / 65536 % 256, x / 16777216 % 256]

/-- Little-endian bytes of a 64-bit length field. -/
def le8 (x : Nat) : List Nat :=
  [x % 256, x / 2 ^ 8 % 256, x / 2 ^ 16 % 256, x / 2 ^ 24 % 256,
   x / 2 ^ 32 % 256, x / 2 ^ 40 % 256, x / 2 ^ 48 % 256, x / 2 ^ 56 % 256]

/-- MD5 padding: a `0x80` byte, zeros up to 56 modulo 64, then the bit
length in 64-bit little-endian form. -/
def md5Pad (msg : List Nat) : List Nat :=
  msg ++ [128] ++ List.replicate ((120 - (msg.length + 1) % 64) % 64) 0
    ++ le8 (8 * msg.length % 2 ^ 64)

/-- Grouping of a padded byte list into little-endian 32-bit words. -/
def toWords : List Nat → List Nat
  | b0 :: b1 :: b2 :: b3 :: rest =>
      (b0 + 256 * b1 + 65536 * b2 + 16777216 * b3) :: toWords rest
  | _ => []

/-- The MD5 chunk loop over the word list, sixteen words per chunk. -/
def md5Loop (st : Nat × Nat × Nat × Nat) : List Nat → Nat × Nat × Nat × Nat
  | w0 :: w1 :: w2 :: w3 :: w4 :: w5 :: w6 :: w7 ::
    w8 :: w9 :: w10 :: w11 :: w12 :: w13 :: w14 :: w15 :: rest =>
      md5Loop (md5Chunk st [w0, w1, w2, w3, w4, w5, w6, w7, w8, w9, w10, w11, w12, w13, w14, w15]) rest
  | _ => st

/-- The sixteen MD5 digest bytes of a message. -/
def md5Bytes (msg : List Nat) : List Nat :=
  let r := md5Loop (0x67452301, 0xefcdab89, 0x98badcfe, 0x10325476) (toWords (md5Pad msg))
  le4 r.1 ++ le4 r.2.1 ++ le4 r.2.2.1 ++ le4 r.2.2.2

/-- One lowercase hexadecimal digit. -/
def hexDigit (n : Nat) : Char :=
  if n < 10 then Char.ofNat (48 + n) else Char.ofNat (87 + n)

/-- Two lowercase hexadecimal digits of a byte. -/
def toHex2 (b : Nat) : List Char := [hexDigit (b / 16 % 16), hexDigit (b % 16)]

/-- Lowercase hexadecimal MD5 digest (Python `hashlib.md5(...).hexdigest()`). -/
def md5Hex (msg : List Nat) : String := ⟨((md5Bytes msg).map toHex2).flatten⟩

/-- `generate_stable_uid` of the source: an existing uid is returned
unchanged; otherwise the MD5 digest of the separator-free concatenation
summary + dtstart + location (absent fields contributing the empty
string), with the namespace suffix appended. -/
def generate_stable_uid (e : EventRecord) : String :=
  match e.uid with
  | some u => u
  | none =>
      let summary := e.summary.getD ""
      let dtstart := e.dtstart.getD ""
      let location := e.location.getD ""
      md5Hex (utf8Encode (summary ++ dtstart ++ location)) ++ "@forex-factory-high-impact"

/-- One component yielded by `Calendar.from_ical(...).walk()`: its
component name (`"VEVENT"`, `"VTIMEZONE"`, ...) and, for events, the
fields the module consults.  `filter_enhanced_events` only reads `fields`
after checking `name == "VEVENT"`. -/
structure Component where
  name : String
  fields : EventRecord
deriving DecidableEq

/-- A raw window blob as seen by `filter_enhanced_events`: the external
`Calendar.from_ical` either raises (modelled as `none`, the module logs
and continues) or yields the walk-ordered component list (`some`). -/
abbrev WindowBlob : Type := Option (List Component)

/-- The aggregation state of `filter_enhanced_events`: the components
added to the output calendar in order, the four counters, and the set of
seen uids (modelled as the list of uids in reverse insertion order; only
membership is ever consulted). -/
structure AggState where
  events : List EventRecord
  total_included : Nat
  total_events : Nat
  red_folder_count : Nat
  vip_keyword_count : Nat
  seen_uids : List String
deriving DecidableEq

/-- The in-place uid assignment of the loop body: `if 'uid' not in
component: component.add('uid', generate_stable_uid(component))`. -/
def withUid (e : EventRecord) : EventRecord :=
  match e.uid with
  | some _ => e
  | none => { e with uid := some (generate_stable_uid e) }

/-- The uid string of a processed component, `str(component['uid'])`
(always present after `withUid`). -/
def uidStr (e : EventRecord) : String := e.uid.getD ""

/-- The body of the walk loop of `filter_enhanced_events` for one
component: count VEVENTs, classify, assign a uid if missing, drop
duplicates, and append survivors with category counting. -/
def processComponent (st : AggState) (c : Component) : AggState :=
  if c.name = "VEVENT" then
    let st1 := { st with total_events := st.total_events + 1 }
    if should_include_event c.fields then
      let comp := withUid c.fields
      let event_uid := uidStr comp
      if event_uid ∈ st1.seen_uids then st1
      else
        { st1 with
          events := st1.events ++ [comp]
          total_included := st1.total_included + 1
          red_folder_count := st1.red_folder_count + (if is_red_folder_event comp then 1 else 0)
          vip_keyword_count := st1.vip_keyword_count +
            (if is_red_folder_event comp then 0 else if is_vip_keyword_event comp then 1 else 0)
          seen_uids := event_uid :: st1.seen_uids }
    else st1
  else st

/-- One iteration of the week loop: an unparseable blob is caught and
skipped (`continue`), a parsed one has its components processed in walk
order. -/
def processWindow (st : AggState) (w : WindowBlob) : AggState :=
  match w with
  | none => st
  | some comps => comps.foldl processComponent st

/-- The empty aggregation state at the top of `filter_enhanced_events`. -/
def initState : AggState := ⟨[], 0, 0, 0, 0, []⟩

/-- `filter_enhanced_events` of the source, returning the final
aggregation state (output events plus counters). -/
def filter_enhanced_events (calendar_data_list : List WindowBlob) : AggState :=
  calendar_data_list.foldl processWindow initState

/-- First-seen-wins deduplication by uid, the reference order of the
spec: keep a record only when its uid has not been seen before. -/
def dedupFirstBy (seen : List String) : List EventRecord → List EventRecord
  | [] => []
  | e :: es =>
      if uidStr e ∈ seen then dedupFirstBy seen es
      else e :: dedupFirstBy (uidStr e :: seen) es

/-- The stream of records eligible for output, in window-then-record
order: VEVENT components of parsed windows, kept when included, each
carrying its resolved uid. -/
def eligibleOfComponents (cs : List Component) : List EventRecord :=
  (((cs.filter (fun c => c.name == "VEVENT")).map Component.fields).filter
    (fun e => should_include_event e)).map withUid

/-- The eligible stream of a whole window list. -/
def eligibleEvents (ws : List WindowBlob) : List EventRecord :=
  eligibleOfComponents (ws.filterMap id).flatten

/-- The character preceding the current position after consuming `l`,
starting from a position preceded by `prev`. -/
def lastOpt (prev : Option Char) : List Char → Option Char
  | [] => prev
  | c :: rest => lastOpt (some c) rest

/-- Lowercase hexadecimal digit predicate. -/
def isHexChar (c : Char) : Bool := c.isDigit || ('a' ≤ c && c ≤ 'f')

example : is_red_folder_event ⟨some "GDP Release", some "Impact: High - Major economic indicator", none, none, none⟩ = true := by decide
example : is_red_folder_event ⟨some "Minor Employment Data", some "Impact: Low - Minor indicator", none, none, none⟩ = false := by decide
example : is_vip_keyword_event ⟨some "FOMC Member Barkin Speaks", some "Impact: Medium - Federal Reserve official speech", none, none, none⟩ = true := by decide
example : is_red_folder_event ⟨some "Test Event", some "thready", none, none, none⟩ = false := by decide
example : is_red_folder_event ⟨some "Test Event", some "red folder analysis", none, none, none⟩ = true := by decide
example : is_vip_keyword_event ⟨some "Delagarde appointment", none, none, none, none⟩ = true := by decide
example : is_vip_keyword_event ⟨some "detrumped", none, none, none, none⟩ = false := by decide
example : is_vip_keyword_event ⟨some "Gov  Bailey speech", none, none, none, none⟩ = true := by decide
example : is_red_folder_event ⟨some "IMPACT:   HIGH", none, none, none, none⟩ = true := by decide
example : is_red_folder_event ⟨some "impact:high", none, none, none, none⟩ = true := by decide
example : should_include_event ⟨none, none, none, none, none⟩ = false := by decide

example :
    (filter_enhanced_events [some [⟨"VEVENT", ⟨some "High Impact GDP", none, none, none, some "u1"⟩⟩],
      some [⟨"VEVENT", ⟨some "High Impact GDP", none, none, none, some "u1"⟩⟩,
            ⟨"VTODO", ⟨some "High Impact GDP", none, none, none, some "u2"⟩⟩,
            ⟨"VEVENT", ⟨some "plain data", none, none, none, some "u3"⟩⟩]]).total_events = 3 := by
  decide

example :
    (filter_enhanced_events [some [⟨"VEVENT", ⟨some "High Impact GDP", none, none, none, some "u1"⟩⟩],
      some [⟨"VEVENT", ⟨some "High Impact GDP", none, none, none, some "u1"⟩⟩,
            ⟨"VEVENT", ⟨some "plain data", none, none, none, some "u3"⟩⟩]]).total_included = 1 := by
  decide

example :
    (filter_enhanced_events [some [⟨"VEVENT", ⟨some "Trump speech", some "Impact: Medium", none, none, some "u1"⟩⟩]]).red_folder_count = 0 := by
  decide

example :
    (filter_enhanced_events [some [⟨"VEVENT", ⟨some "Trump speech", some "Impact: Medium", none, none, some "u1"⟩⟩]]).vip_keyword_count = 1 := by
  decide

theorem searchAux_of_matchFrom (toks : List RTok) (prev : Option Char) (cs : List Char)
    (h : matchFrom toks prev cs = true) : searchAux toks prev cs = true := by
  cases cs with
  | nil => simpa [searchAux] using h
  | cons c cs => simp [searchAux, h]

theorem searchAux_append_left (toks : List RTok) :
    ∀ (l : List Char) (prev : Option Char) (cs : List Char),
      searchAux toks (lastOpt prev l) cs = true → searchAux toks prev (l ++ cs) = true := by
  intro l
  induction l with
  | nil => intro prev cs h; simpa [lastOpt] using h
  | cons c rest ih =>
      intro prev cs h
      have hr := ih (some c) cs (by simpa [lastOpt] using h)
      simp [searchAux, hr]

theorem matchFrom_red_folder (prev : Option Char) (rest : List Char) :
    matchFrom (rlit "red" ++ [RTok.wsStar] ++ rlit "folder") prev
      ('r' :: 'e' :: 'd' :: ' ' :: 'f' :: 'o' :: 'l' :: 'd' :: 'e' :: 'r' :: rest) = true := rfl

theorem matchFrom_lagarde_wb (prev : Option Char) (post : List Char)
    (h : headWord post = false) :
    matchFrom (rlit "lagarde" ++ [RTok.wb]) prev
      ('l' :: 'a' :: 'g' :: 'a' :: 'r' :: 'd' :: 'e' :: post) = true := by
  show ((isWordOpt (some 'e') != headWord post) && true) = true
  rw [h]
  rfl

/-- C2: `should_include_event` returns true exactly when some Red Folder
pattern or some VIP keyword pattern matches the lower-cased concatenated
summary-then-description text; a Red Folder match alone suffices (the
tier evaluated first), and a VIP keyword match alone suffices regardless
of any stated impact level (always-include VIP policy, no medium-impact
gate). -/
theorem C2_should_include_iff (e : EventRecord) :
    (should_include_event e = true ↔
      ((∃ p ∈ RED_FOLDER_PATTERNS, reSearch p (pyLower (text_to_check e)) = true) ∨
       (∃ p ∈ VIP_KEYWORDS, reSearch p (pyLower (text_to_check e)) = true)))
    ∧ (is_red_folder_event e = true → should_include_event e = true)
    ∧ (is_vip_keyword_event e = true → should_include_event e = true) := by
  refine ⟨?_, ?_, ?_⟩
  · simp [should_include_event, is_red_folder_event, is_vip_keyword_event, List.any_eq_true]
  · intro h; simp [should_include_event, h]
  · intro h; simp [should_include_event, h]

theorem C2_should_include_iff_witness :
    (is_red_folder_event ⟨some "GDP Release", some "Impact: High - Major economic indicator", none, none, none⟩ = true ∧
     should_include_event ⟨some "GDP Release", some "Impact: High - Major economic indicator", none, none, none⟩ = true) ∧
    (is_vip_keyword_event ⟨some "FOMC Member Barkin Speaks", some "Impact: Medium - Federal Reserve official speech", none, none, none⟩ = true ∧
     should_include_event ⟨some "FOMC Member Barkin Speaks", some "Impact: Medium - Federal Reserve official speech", none, none, none⟩ = true) :=
  ⟨⟨by decide, (C2_should_include_iff _).2.1 (by decide)⟩,
   ⟨by decide, (C2_should_include_iff _).2.2 (by decide)⟩⟩

theorem searchAux_split (toks : List RTok) :
    ∀ (cs : List Char) (prev : Option Char), searchAux toks prev cs = true →
      ∃ l r, cs = l ++ r ∧ matchFrom toks (lastOpt prev l) r = true := by
  intro cs
  induction cs with
  | nil =>
      intro prev h
      exact ⟨[], [], rfl, by simpa [searchAux, lastOpt] using h⟩
  | cons c cs ih =>
      intro prev h
      rw [searchAux] at h
      simp only [Bool.or_eq_true] at h
      rcases h with hm | hs
      · exact ⟨[], c :: cs, rfl, by simpa [lastOpt] using hm⟩
      · obtain ⟨l, r, hsplit, hm⟩ := ih (some c) hs
        exact ⟨c :: l, r, by rw [List.cons_append, ← hsplit], by simpa [lastOpt] using hm⟩

theorem matchFrom_lit_split (c : Char) (ts : List RTok) (p : Option Char) (r : List Char)
    (h : matchFrom (RTok.lit c :: ts) p r = true) :
    ∃ r1, r = c :: r1 ∧ matchFrom ts (some c) r1 = true := by
  cases r with
  | nil => simp [matchFrom] at h
  | cons d r1 =>
      simp only [matchFrom, Bool.and_eq_true, beq_iff_eq] at h
      obtain ⟨rfl, hm⟩ := h
      exact ⟨r1, rfl, hm⟩

theorem matchFrom_wb_split (ts : List RTok) (p : Option Char) (r : List Char)
    (h : matchFrom (RTok.wb :: ts) p r = true) :
    (isWordOpt p != headWord r) = true ∧ matchFrom ts p r = true := by
  simp only [matchFrom, Bool.and_eq_true] at h
  exact h

theorem matchFrom_bred_split (p : Option Char) (r : List Char)
    (h : matchFrom ([RTok.wb] ++ rlit "red" ++ [RTok.wb]) p r = true) :
    ∃ r3, r = 'r' :: 'e' :: 'd' :: r3 ∧ isWordOpt p = false ∧ headWord r3 = false := by
  have hp : ([RTok.wb] ++ rlit "red" ++ [RTok.wb])
      = RTok.wb :: RTok.lit 'r' :: RTok.lit 'e' :: RTok.lit 'd' :: RTok.wb :: [] := rfl
  rw [hp] at h
  cases r with
  | nil => simp [matchFrom] at h
  | cons c1 r1 =>
  cases r1 with
  | nil => simp [matchFrom] at h
  | cons c2 r2 =>
  cases r2 with
  | nil => simp [matchFrom] at h
  | cons c3 r3 =>
  simp only [matchFrom, Bool.and_eq_true, beq_iff_eq] at h
  obtain ⟨hb1, rfl, rfl, rfl, hb2, -⟩ := h
  refine ⟨r3, rfl, ?_, ?_⟩
  · have hhw : headWord ('r' :: 'e' :: 'd' :: r3) = true := rfl
    rw [hhw] at hb1
    cases hiw : isWordOpt p
    · rfl
    · rw [hiw] at hb1; simp at hb1
  · have hiw : isWordOpt (some 'd') = true := rfl
    rw [hiw] at hb2
    cases hh : headWord r3
    · rfl
    · rw [hh] at hb2; simp at hb2

theorem bred_search_false (s : String)
    (hocc : ∀ i < s.data.length, (s.data.drop i).take 3 = ['r', 'e', 'd'] →
      (isWordOpt (lastOpt none (s.data.take i)) = true ∨ headWord (s.data.drop (i + 3)) = true)) :
    reSearch ([RTok.wb] ++ rlit "red" ++ [RTok.wb]) s = false := by
  by_contra hne
  have htrue : searchAux ([RTok.wb] ++ rlit "red" ++ [RTok.wb]) none s.data = true :=
    Bool.ne_false_iff.mp hne
  obtain ⟨pre, r, hsplit, hm⟩ := searchAux_split _ _ _ htrue
  obtain ⟨r3, rfl, hp, hh⟩ := matchFrom_bred_split _ _ hm
  have hlen : pre.length < s.data.length := by
    rw [hsplit]; simp
  have hdrop : (s.data.drop pre.length).take 3 = ['r', 'e', 'd'] := by
    rw [hsplit, List.drop_left]
    rfl
  have htake : s.data.take pre.length = pre := by
    rw [hsplit, List.take_left]
  rcases hocc pre.length hlen hdrop with hcase | hcase
  · rw [htake] at hcase
    rw [hp] at hcase
    exact Bool.false_ne_true hcase
  · have hdrop3 : s.data.drop (pre.length + 3) = r3 := by
      rw [hsplit, ← List.drop_drop, List.drop_left]
      rfl
    rw [hdrop3] at hcase
    rw [hh] at hcase
    exact Bool.false_ne_true hcase

/-- C3: the standalone-word pattern for "red" matches only at word
boundaries.  If every occurrence of "red" in the lower-cased event text
sits inside a longer word (a word character on at least one side) and no
other Red Folder pattern matches, `is_red_folder_event` returns `false`;
and any event whose lower-cased text contains "red folder analysis" makes
`is_red_folder_event` return `true`. -/
theorem C3_red_word_boundary :
    (∀ e : EventRecord,
      (∀ i < (pyLower (text_to_check e)).data.length,
        ((pyLower (text_to_check e)).data.drop i).take 3 = ['r', 'e', 'd'] →
          (isWordOpt (lastOpt none ((pyLower (text_to_check e)).data.take i)) = true ∨
           headWord ((pyLower (text_to_check e)).data.drop (i + 3)) = true)) →
      reSearch (rlit "impact:" ++ [RTok.wsStar] ++ rlit "high") (pyLower (text_to_check e)) = false →
      reSearch (rlit "high" ++ [RTok.wsStar] ++ rlit "impact") (pyLower (text_to_check e)) = false →
      reSearch (rlit "red" ++ [RTok.wsStar] ++ rlit "folder") (pyLower (text_to_check e)) = false →
      reSearch (rlit "red" ++ [RTok.wsStar] ++ rlit "impact") (pyLower (text_to_check e)) = false →
      is_red_folder_event e = false)
    ∧ (∀ (e : EventRecord) (pre post : List Char),
        (pyLower (text_to_check e)).data = pre ++ "red folder analysis".data ++ post →
        is_red_folder_event e = true) := by
  constructor
  · intro e hocc h1 h2 h3 h4
    have h5 : reSearch ([RTok.wb] ++ rlit "red" ++ [RTok.wb]) (pyLower (text_to_check e)) = false :=
      bred_search_false _ hocc
    rw [is_red_folder_event]
    refine List.any_eq_false.mpr ?_
    intro p hmem
    simp only [RED_FOLDER_PATTERNS, List.mem_cons, List.not_mem_nil, or_false] at hmem
    rcases hmem with rfl | rfl | rfl | rfl | rfl
    exacts [by simpa using h1, by simpa using h2, by simpa using h3, by simpa using h4, by simpa using h5]
  · intro e pre post heq
    rw [is_red_folder_event]
    refine List.any_eq_true.mpr ⟨rlit "red" ++ [RTok.wsStar] ++ rlit "folder", by decide, ?_⟩
    have hassoc : pre ++ "red folder analysis".data ++ post
        = pre ++ ("red folder analysis".data ++ post) := List.append_assoc _ _ _
    rw [reSearch, heq, hassoc]
    refine searchAux_append_left _ pre none _ ?_
    exact searchAux_of_matchFrom _ _ _
      (matchFrom_red_folder _ (' ' :: 'a' :: 'n' :: 'a' :: 'l' :: 'y' :: 's' :: 'i' :: 's' :: post))

theorem C3_red_word_boundary_witness :
    is_red_folder_event ⟨some "thready bored credit", none, none, none, none⟩ = false ∧
    is_red_folder_event ⟨some "Red Folder Analysis due", none, none, none, none⟩ = true :=
  ⟨C3_red_word_boundary.1 _ (by decide) (by decide) (by decide) (by decide) (by decide),
   C3_red_word_boundary.2 _ [] " due ".data (by decide)⟩

/-- C4 counterexample: the event with summary "Delagarde appointment" has
"lagarde" only as a suffix inside the longer word "delagarde" and matches
no Red Folder pattern and no VIP pattern other than `lagarde\b`; the
claim predicts verdict `Plain` and exclusion, but the code returns
verdict `VipKeyword` and includes it, because `lagarde\b` has no leading
word boundary. -/
theorem C4_counterexample :
    is_red_folder_event ⟨some "Delagarde appointment", none, none, none, none⟩ = false ∧
    VIP_KEYWORDS.filter
      (fun p => reSearch p (pyLower (text_to_check ⟨some "Delagarde appointment", none, none, none, none⟩)))
      = [rlit "lagarde" ++ [RTok.wb]] ∧
    is_vip_keyword_event ⟨some "Delagarde appointment", none, none, none, none⟩ = true ∧
    classify ⟨some "Delagarde appointment", none, none, none, none⟩ = Verdict.VipKeyword ∧
    should_include_event ⟨some "Delagarde appointment", none, none, none, none⟩ = true := by
  decide

/-- C4 (amended): because the `lagarde\b` pattern anchors only its
trailing word boundary, every event whose lower-cased text contains
"lagarde" as the suffix of a longer word (a word character right before
it) followed by a non-word character or the end of the text (for example
"delagarde ", "malagarde.") and that matches no Red Folder pattern gets
verdict `VipKeyword`, and `should_include_event` returns `true` (not
`Plain` / `false` as the original claim stated). -/
theorem C4_lagarde_suffix_matches :
    ∀ (e : EventRecord) (pre post : List Char),
      (pyLower (text_to_check e)).data = pre ++ "lagarde".data ++ post →
      isWordOpt (lastOpt none pre) = true →
      headWord post = false →
      is_red_folder_event e = false →
      is_vip_keyword_event e = true ∧ classify e = Verdict.VipKeyword ∧
        should_include_event e = true := by
  intro e pre post heq _hword hpost hred
  have hvip : is_vip_keyword_event e = true := by
    rw [is_vip_keyword_event]
    refine List.any_eq_true.mpr ⟨rlit "lagarde" ++ [RTok.wb], by decide, ?_⟩
    have hassoc : pre ++ "lagarde".data ++ post
        = pre ++ ("lagarde".data ++ post) := List.append_assoc _ _ _
    rw [reSearch, heq, hassoc]
    refine searchAux_append_left _ pre none _ ?_
    exact searchAux_of_matchFrom _ _ _ (matchFrom_lagarde_wb _ post hpost)
  refine ⟨hvip, ?_, ?_⟩
  · simp [classify, hred, hvip]
  · simp [should_include_event, hvip]

theorem C4_lagarde_suffix_matches_witness :
    is_vip_keyword_event ⟨some "Malagarde speech", none, none, none, none⟩ = true ∧
    classify ⟨some "Malagarde speech", none, none, none, none⟩ = Verdict.VipKeyword ∧
    should_include_event ⟨some "Malagarde speech", none, none, none, none⟩ = true :=
  C4_lagarde_suffix_matches _ ['m', 'a'] " speech ".data
    (by decide) (by decide) (by decide) (by decide)

theorem hexDigit_isHex : ∀ n < 16, isHexChar (hexDigit n) = true := by decide

theorem md5Bytes_length (msg : List Nat) : (md5Bytes msg).length = 16 := by
  rw [md5Bytes]
  simp [le4]

theorem md5Hex_length (msg : List Nat) : (md5Hex msg).length = 32 := by
  have h1 : (md5Hex msg).length = (((md5Bytes msg).map toHex2).flatten).length := rfl
  have h2 : (List.length ∘ toHex2) = fun _ : Nat => 2 := by
    funext b; rfl
  rw [h1, List.length_flatten, List.map_map, h2, List.map_const']
  simp [md5Bytes_length msg, List.sum_replicate]

theorem md5Hex_chars (msg : List Nat) : ∀ c ∈ (md5Hex msg).data, isHexChar c = true := by
  intro c hc
  have hc2 : c ∈ ((md5Bytes msg).map toHex2).flatten := hc
  rw [List.mem_flatten] at hc2
  obtain ⟨l, hl, hcl⟩ := hc2
  rw [List.mem_map] at hl
  obtain ⟨b, _, rfl⟩ := hl
  have hmem : c = hexDigit (b / 16 % 16) ∨ c = hexDigit (b % 16) := by
    simpa [toHex2] using hcl
  rcases hmem with rfl | rfl
  · exact hexDigit_isHex _ (Nat.mod_lt _ (by norm_num))
  · exact hexDigit_isHex _ (Nat.mod_lt _ (by norm_num))

/-- C5: `generate_stable_uid` returns an already-present uid unchanged;
for a record without one it returns the fixed-length (32 hex characters)
MD5 digest of the UTF-8 bytes of the separator-free concatenation
summary + start time + location (absent fields contributing the empty
string) followed by the namespace suffix "@forex-factory-high-impact",
and the result depends only on that content. -/
theorem C5_generate_stable_uid (e e' : EventRecord) :
    (∀ u, e.uid = some u → generate_stable_uid e = u)
    ∧ (e.uid = none →
        generate_stable_uid e
          = md5Hex (utf8Encode ((e.summary.getD "") ++ (e.dtstart.getD "") ++ (e.location.getD "")))
              ++ "@forex-factory-high-impact"
        ∧ (md5Hex (utf8Encode ((e.summary.getD "") ++ (e.dtstart.getD "") ++ (e.location.getD "")))).length = 32
        ∧ ∀ c ∈ (md5Hex (utf8Encode ((e.summary.getD "") ++ (e.dtstart.getD "") ++ (e.location.getD "")))).data,
            isHexChar c = true)
    ∧ (e.uid = none → e'.uid = none → e.summary = e'.summary → e.dtstart = e'.dtstart →
        e.location = e'.location → generate_stable_uid e = generate_stable_uid e') := by
  refine ⟨?_, ?_, ?_⟩
  · intro u hu
    simp [generate_stable_uid, hu]
  · intro hu
    exact ⟨by simp [generate_stable_uid, hu], md5Hex_length _, md5Hex_chars _⟩
  · intro hu hu' hs hd hl
    simp [generate_stable_uid, hu, hu', hs, hd, hl]

theorem C5_generate_stable_uid_witness :
    generate_stable_uid ⟨some "s", none, none, none, some "native-uid"⟩ = "native-uid" ∧
    generate_stable_uid ⟨some "Test Event", none, some "2024-01-01 12:00:00+00:00", some "USD", none⟩
      = md5Hex (utf8Encode ("Test Event" ++ "2024-01-01 12:00:00+00:00" ++ "USD"))
          ++ "@forex-factory-high-impact" :=
  ⟨(C5_generate_stable_uid ⟨some "s", none, none, none, some "native-uid"⟩
      ⟨none, none, none, none, none⟩).1 _ rfl,
   ((C5_generate_stable_uid ⟨some "Test Event", none, some "2024-01-01 12:00:00+00:00", some "USD", none⟩
      ⟨none, none, none, none, none⟩).2.1 rfl).1⟩

/-- C8: classification, identifier generation and aggregation operate on
records with absent optional fields without any failure path: absent text
fields contribute empty text, a record with no summary and no description
matches nothing (verdict `Plain`), and a record with all fields absent
hashes the empty string. -/
theorem C8_missing_fields_safe (e : EventRecord) :
    (e.summary = none → e.description = none →
      is_red_folder_event e = false ∧ is_vip_keyword_event e = false ∧
      should_include_event e = false ∧ classify e = Verdict.Plain)
    ∧ (∀ d, e.summary = none → e.description = some d → text_to_check e = d ++ " ")
    ∧ (e.uid = none → e.summary = none → e.dtstart = none → e.location = none →
      generate_stable_uid e = md5Hex (utf8Encode "") ++ "@forex-factory-high-impact") := by
  refine ⟨?_, ?_, ?_⟩
  · intro h1 h2
    have ht : text_to_check e = "" := by simp [text_to_check, h1, h2]
    have hr : is_red_folder_event e = false := by
      rw [is_red_folder_event, ht]; decide
    have hv : is_vip_keyword_event e = false := by
      rw [is_vip_keyword_event, ht]; decide
    exact ⟨hr, hv, by simp [should_include_event, hr, hv], by simp [classify, hr, hv]⟩
  · intro d h1 h2
    simp [text_to_check, h1, h2]
  · intro hu h1 h3 h4
    have hcat : (e.summary.getD "") ++ (e.dtstart.getD "") ++ (e.location.getD "") = "" := by
      rw [h1, h3, h4]; rfl
    simp [generate_stable_uid, hu, hcat]

theorem C8_missing_fields_safe_witness :
    should_include_event ⟨none, none, none, none, none⟩ = false ∧
    text_to_check ⟨none, some "Impact: High", none, none, none⟩ = "Impact: High" ++ " " ∧
    generate_stable_uid ⟨none, none, none, none, none⟩
      = md5Hex (utf8Encode "") ++ "@forex-factory-high-impact" :=
  ⟨((C8_missing_fields_safe ⟨none, none, none, none, none⟩).1 rfl rfl).2.2.1,
   (C8_missing_fields_safe ⟨none, some "Impact: High", none, none, none⟩).2.1 _ rfl rfl,
   (C8_missing_fields_safe ⟨none, none, none, none, none⟩).2.2 rfl rfl rfl rfl⟩

theorem processComponent_not_vevent (st : AggState) (c : Component) (h : ¬ c.name = "VEVENT") :
    processComponent st c = st := by
  simp [processComponent, h]

theorem processComponent_not_included (st : AggState) (c : Component)
    (h1 : c.name = "VEVENT") (h2 : should_include_event c.fields = false) :
    processComponent st c = { st with total_events := st.total_events + 1 } := by
  simp [processComponent, h1, h2]

theorem processComponent_dup (st : AggState) (c : Component)
    (h1 : c.name = "VEVENT") (h2 : should_include_event c.fields = true)
    (h3 : uidStr (withUid c.fields) ∈ st.seen_uids) :
    processComponent st c = { st with total_events := st.total_events + 1 } := by
  simp [processComponent, h1, h2, h3]

theorem processComponent_new (st : AggState) (c : Component)
    (h1 : c.name = "VEVENT") (h2 : should_include_event c.fields = true)
    (h3 : uidStr (withUid c.fields) ∉ st.seen_uids) :
    processComponent st c =
      { events := st.events ++ [withUid c.fields]
        total_included := st.total_included + 1
        total_events := st.total_events + 1
        red_folder_count := st.red_folder_count + (if is_red_folder_event (withUid c.fields) then 1 else 0)
        vip_keyword_count := st.vip_keyword_count +
          (if is_red_folder_event (withUid c.fields) then 0
           else if is_vip_keyword_event (withUid c.fields) then 1 else 0)
        seen_uids := uidStr (withUid c.fields) :: st.seen_uids } := by
  simp [processComponent, h1, h2, h3]

theorem foldl_processWindow_eq (ws : List WindowBlob) :
    ∀ st : AggState,
      ws.foldl processWindow st = ((ws.filterMap id).flatten).foldl processComponent st := by
  induction ws with
  | nil => intro st; rfl
  | cons w ws ih =>
      intro st
      cases w with
      | none =>
          simp only [List.foldl_cons]
          rw [ih]
          rfl
      | some comps =>
          simp only [List.foldl_cons]
          rw [ih]
          show ((ws.filterMap id).flatten).foldl processComponent (comps.foldl processComponent st)
              = ((comps :: ws.filterMap id).flatten).foldl processComponent st
          rw [List.flatten_cons, List.foldl_append]

theorem foldl_processComponent_events :
    ∀ (cs : List Component) (st : AggState),
      (cs.foldl processComponent st).events
          = st.events ++ dedupFirstBy st.seen_uids (eligibleOfComponents cs)
      ∧ (cs.foldl processComponent st).seen_uids
          = ((dedupFirstBy st.seen_uids (eligibleOfComponents cs)).map uidStr).reverse ++ st.seen_uids := by
  intro cs
  induction cs with
  | nil =>
      intro st
      simp [eligibleOfComponents, dedupFirstBy]
  | cons c cs ih =>
      intro st
      by_cases h1 : c.name = "VEVENT"
      · cases h2 : should_include_event c.fields with
        | false =>
          have hpc := processComponent_not_included st c h1 h2
          have hec : eligibleOfComponents (c :: cs) = eligibleOfComponents cs := by
            simp [eligibleOfComponents, List.filter_cons, h1, h2]
          rw [List.foldl_cons, hpc, hec]
          exact ih _
        | true =>
          have hec : eligibleOfComponents (c :: cs)
              = withUid c.fields :: eligibleOfComponents cs := by
            simp [eligibleOfComponents, List.filter_cons, h1, h2]
          by_cases h3 : uidStr (withUid c.fields) ∈ st.seen_uids
          · have hpc := processComponent_dup st c h1 h2 h3
            rw [List.foldl_cons, hpc, hec]
            simp only [dedupFirstBy, if_pos h3]
            exact ih _
          · have hpc := processComponent_new st c h1 h2 h3
            rw [List.foldl_cons, hpc, hec]
            simp only [dedupFirstBy, if_neg h3]
            constructor
            · rw [(ih _).1]
              simp [List.append_assoc]
            · rw [(ih _).2]
              simp [List.reverse_cons, List.append_assoc]
      · have hpc := processComponent_not_vevent st c h1
        have hec : eligibleOfComponents (c :: cs) = eligibleOfComponents cs := by
          simp [eligibleOfComponents, List.filter_cons, h1]
        rw [List.foldl_cons, hpc, hec]
        exact ih st

theorem dedupFirstBy_nodup :
    ∀ (l : List EventRecord) (seen : List String),
      ((dedupFirstBy seen l).map uidStr).Nodup
      ∧ ∀ u ∈ (dedupFirstBy seen l).map uidStr, u ∉ seen := by
  intro l
  induction l with
  | nil => intro seen; simp [dedupFirstBy]
  | cons e es ih =>
      intro seen
      by_cases h : uidStr e ∈ seen
      · simp only [dedupFirstBy, if_pos h]
        exact ih seen
      · simp only [dedupFirstBy, if_neg h]
        obtain ⟨ih1, ih2⟩ := ih (uidStr e :: seen)
        constructor
        · simp only [List.map_cons, List.nodup_cons]
          refine ⟨?_, ih1⟩
          intro hmem
          exact (ih2 _ hmem) (List.mem_cons_self _ _)
        · intro u hu
          simp only [List.map_cons, List.mem_cons] at hu
          rcases hu with rfl | hu
          · exact h
          · intro hus
            exact (ih2 u hu) (List.mem_cons_of_mem _ hus)

/-- C1: for every list of parseable window blobs, the output calendar of
`filter_enhanced_events` has pairwise distinct uid strings on its VEVENT
components, and it equals the first-seen-wins deduplication (in
window-then-record order) of the stream of included events: the first
record with each identifier is kept, all later ones are dropped. -/
theorem C1_dedup_first_seen (ws : List (List Component)) :
    (((filter_enhanced_events (ws.map some)).events.map uidStr).Nodup)
    ∧ (filter_enhanced_events (ws.map some)).events
        = dedupFirstBy [] (eligibleEvents (ws.map some)) := by
  have heq : (filter_enhanced_events (ws.map some)).events
      = dedupFirstBy [] (eligibleEvents (ws.map some)) := by
    show ((ws.map some).foldl processWindow initState).events = _
    rw [foldl_processWindow_eq]
    rw [(foldl_processComponent_events (((ws.map some).filterMap id).flatten) initState).1]
    rfl
  refine ⟨?_, heq⟩
  rw [heq]
  exact (dedupFirstBy_nodup (eligibleEvents (ws.map some)) []).1

theorem foldl_processWindow_filter_isSome (ws : List WindowBlob) :
    ∀ st : AggState,
      ws.foldl processWindow st = (ws.filter (fun w => w.isSome)).foldl processWindow st := by
  induction ws with
  | nil => intro st; rfl
  | cons w ws ih =>
      intro st
      cases w with
      | none =>
          simp only [List.foldl_cons, List.filter_cons, Option.isSome_none, Bool.false_eq_true,
            if_false]
          exact ih st
      | some comps =>
          simp only [List.foldl_cons, List.filter_cons, Option.isSome_some, if_true]
          exact ih _

/-- C9: a window blob whose text fails to parse is skipped without an
error and contributes nothing: the aggregation result over any blob list
equals the result (output calendar and all counters) over the list with
every unparseable blob removed. -/
theorem C9_unparseable_skipped (ws : List WindowBlob) :
    filter_enhanced_events ws = filter_enhanced_events (ws.filter (fun w => w.isSome)) :=
  foldl_processWindow_filter_isSome ws initState

theorem foldl_processComponent_filter_vevent (cs : List Component) :
    ∀ st : AggState,
      cs.foldl processComponent st
        = (cs.filter (fun c => c.name == "VEVENT")).foldl processComponent st := by
  induction cs with
  | nil => intro st; rfl
  | cons c cs ih =>
      intro st
      by_cases h : c.name = "VEVENT"
      · have hb : (c.name == "VEVENT") = true := by simp [h]
        simp only [List.foldl_cons, List.filter_cons, hb, if_true]
        exact ih _
      · have hb : (c.name == "VEVENT") = false := by simp [h]
        simp only [List.foldl_cons, List.filter_cons, hb, Bool.false_eq_true, if_false]
        rw [processComponent_not_vevent st c h]
        exact ih st

theorem processComponent_total (st : AggState) (c : Component) :
    (processComponent st c).total_events
      = st.total_events + (if c.name = "VEVENT" then 1 else 0) := by
  by_cases h1 : c.name = "VEVENT"
  · cases h2 : should_include_event c.fields with
    | false => simp [processComponent_not_included st c h1 h2, h1]
    | true =>
        by_cases h3 : uidStr (withUid c.fields) ∈ st.seen_uids
        · simp [processComponent_dup st c h1 h2 h3, h1]
        · simp [processComponent_new st c h1 h2 h3, h1]
  · simp [processComponent_not_vevent st c h1, h1]

theorem foldl_processComponent_total (cs : List Component) :
    ∀ st : AggState,
      (cs.foldl processComponent st).total_events
        = st.total_events + (cs.filter (fun c => c.name == "VEVENT")).length := by
  induction cs with
  | nil => intro st; simp
  | cons c cs ih =>
      intro st
      rw [List.foldl_cons, ih, processComponent_total]
      by_cases h : c.name = "VEVENT"
      · have hb : (c.name == "VEVENT") = true := by simp [h]
        simp only [List.filter_cons, hb, if_true, if_pos h, List.length_cons]
        omega
      · have hb : (c.name == "VEVENT") = false := by simp [h]
        simp only [List.filter_cons, hb, Bool.false_eq_true, if_false, if_neg h]
        omega

theorem foldl_processWindow_filter_vevent (ws : List WindowBlob) :
    ∀ st : AggState,
      ws.foldl processWindow st
        = (ws.map (Option.map (List.filter (fun c => c.name == "VEVENT")))).foldl processWindow st := by
  induction ws with
  | nil => intro st; rfl
  | cons w ws ih =>
      intro st
      cases w with
      | none =>
          simp only [List.map_cons, List.foldl_cons]
          exact ih st
      | some comps =>
          simp only [List.map_cons, List.foldl_cons]
          have hw : processWindow st (some comps)
              = processWindow st (some (comps.filter (fun c => c.name == "VEVENT"))) :=
            foldl_processComponent_filter_vevent comps st
          rw [hw]
          exact ih _

/-- C10: components other than VEVENT contribute nothing to aggregation:
removing every non-VEVENT component from every parsed window leaves the
entire result (output calendar and all counters) unchanged, and the
total-seen counter equals the number of VEVENT components of the parsed
windows alone. -/
theorem C10_non_vevent_ignored (ws : List WindowBlob) :
    filter_enhanced_events ws
      = filter_enhanced_events (ws.map (Option.map (List.filter (fun c => c.name == "VEVENT"))))
    ∧ (filter_enhanced_events ws).total_events
      = (((ws.filterMap id).flatten).filter (fun c => c.name == "VEVENT")).length := by
  constructor
  · exact foldl_processWindow_filter_vevent ws initState
  · show ((ws.foldl processWindow initState)).total_events = _
    rw [foldl_processWindow_eq ws initState, foldl_processComponent_total]
    simp [initState]

theorem foldl_only_plain (w : List Component) :
    ∀ st : AggState, (∀ c ∈ w, c.name = "VEVENT" ∧ should_include_event c.fields = false) →
      (w.foldl processComponent st).events = st.events
      ∧ (w.foldl processComponent st).total_included = st.total_included
      ∧ (w.foldl processComponent st).red_folder_count = st.red_folder_count
      ∧ (w.foldl processComponent st).vip_keyword_count = st.vip_keyword_count
      ∧ (w.foldl processComponent st).seen_uids = st.seen_uids
      ∧ (w.foldl processComponent st).total_events = st.total_events + w.length := by
  induction w with
  | nil => intro st _; simp
  | cons c w ih =>
      intro st h
      obtain ⟨h1, h2⟩ := h c (List.mem_cons_self c w)
      have hrest : ∀ c' ∈ w, c'.name = "VEVENT" ∧ should_include_event c'.fields = false :=
        fun c' hc' => h c' (List.mem_cons_of_mem _ hc')
      rw [List.foldl_cons, processComponent_not_included st c h1 h2]
      obtain ⟨e1, e2, e3, e4, e5, e6⟩ := ih _ hrest
      refine ⟨by rw [e1], by rw [e2], by rw [e3], by rw [e4], by rw [e5], ?_⟩
      rw [e6]
      show st.total_events + 1 + w.length = st.total_events + (w.length + 1)
      omega

/-- C7: appending one parseable window whose components are all
Plain-classified VEVENTs leaves the output event sequence, the included
counter and both per-category counters unchanged; only the total-seen
counter grows, by the number of events in that window. -/
theorem C7_plain_window_frame (ws : List WindowBlob) (w : List Component)
    (h : ∀ c ∈ w, c.name = "VEVENT" ∧ should_include_event c.fields = false) :
    (filter_enhanced_events (ws ++ [some w])).events = (filter_enhanced_events ws).events
    ∧ (filter_enhanced_events (ws ++ [some w])).total_included
        = (filter_enhanced_events ws).total_included
    ∧ (filter_enhanced_events (ws ++ [some w])).red_folder_count
        = (filter_enhanced_events ws).red_folder_count
    ∧ (filter_enhanced_events (ws ++ [some w])).vip_keyword_count
        = (filter_enhanced_events ws).vip_keyword_count
    ∧ (filter_enhanced_events (ws ++ [some w])).total_events
        = (filter_enhanced_events ws).total_events + w.length := by
  have hfe : filter_enhanced_events (ws ++ [some w])
      = w.foldl processComponent (filter_enhanced_events ws) := by
    show (ws ++ [some w]).foldl processWindow initState = _
    rw [List.foldl_append]
    rfl
  rw [hfe]
  obtain ⟨e1, e2, e3, e4, _, e6⟩ := foldl_only_plain w (filter_enhanced_events ws) h
  exact ⟨e1, e2, e3, e4, e6⟩

theorem C7_plain_window_frame_witness :
    (filter_enhanced_events [some [⟨"VEVENT", ⟨some "FOMC Statement", none, none, none, some "u1"⟩⟩],
        some [⟨"VEVENT", ⟨some "Quiet housing data", none, none, none, some "u2"⟩⟩]]).events
      = (filter_enhanced_events [some [⟨"VEVENT", ⟨some "FOMC Statement", none, none, none, some "u1"⟩⟩]]).events
    ∧ (filter_enhanced_events [some [⟨"VEVENT", ⟨some "FOMC Statement", none, none, none, some "u1"⟩⟩],
        some [⟨"VEVENT", ⟨some "Quiet housing data", none, none, none, some "u2"⟩⟩]]).total_events
      = (filter_enhanced_events [some [⟨"VEVENT", ⟨some "FOMC Statement", none, none, none, some "u1"⟩⟩]]).total_events + 1 := by
  have h := C7_plain_window_frame
    [some [⟨"VEVENT", ⟨some "FOMC Statement", none, none, none, some "u1"⟩⟩]]
    [⟨"VEVENT", ⟨some "Quiet housing data", none, none, none, some "u2"⟩⟩] (by decide)
  exact ⟨h.1, h.2.2.2.2⟩

/-- C6: two windows each containing an identical non-Plain event record
(same summary, start time and location, no native uid) aggregate to
exactly one copy of the record in the output calendar, the included
counter incremented once and the total-seen counter incremented twice;
the identical content hashes to the same stable uid, so the second
occurrence is dropped as a duplicate. -/
theorem C6_identical_across_windows (e : EventRecord)
    (_hu : e.uid = none) (hinc : should_include_event e = true) :
    (filter_enhanced_events [some [⟨"VEVENT", e⟩], some [⟨"VEVENT", e⟩]]).events = [withUid e]
    ∧ (filter_enhanced_events [some [⟨"VEVENT", e⟩], some [⟨"VEVENT", e⟩]]).total_included = 1
    ∧ (filter_enhanced_events [some [⟨"VEVENT", e⟩], some [⟨"VEVENT", e⟩]]).total_events = 2 := by
  have hname : (⟨"VEVENT", e⟩ : Component).name = "VEVENT" := rfl
  have h3 : uidStr (withUid e) ∉ initState.seen_uids := List.not_mem_nil _
  have hst1 := processComponent_new initState ⟨"VEVENT", e⟩ hname hinc h3
  have h3' : uidStr (withUid e) ∈ (processComponent initState ⟨"VEVENT", e⟩).seen_uids := by
    rw [hst1]
    exact List.mem_cons_self _ _
  have hst2 := processComponent_dup (processComponent initState ⟨"VEVENT", e⟩)
    ⟨"VEVENT", e⟩ hname hinc h3'
  show (processComponent (processComponent initState ⟨"VEVENT", e⟩) ⟨"VEVENT", e⟩).events = _
    ∧ (processComponent (processComponent initState ⟨"VEVENT", e⟩) ⟨"VEVENT", e⟩).total_included = _
    ∧ (processComponent (processComponent initState ⟨"VEVENT", e⟩) ⟨"VEVENT", e⟩).total_events = _
  rw [hst2, hst1]
  exact ⟨rfl, rfl, rfl⟩

theorem C6_identical_across_windows_witness :
    (filter_enhanced_events
        [some [⟨"VEVENT", ⟨some "FOMC Meeting Minutes", some "Impact: Medium - Federal Reserve meeting", some "2024-01-03 19:00:00+00:00", some "USD", none⟩⟩],
         some [⟨"VEVENT", ⟨some "FOMC Meeting Minutes", some "Impact: Medium - Federal Reserve meeting", some "2024-01-03 19:00:00+00:00", some "USD", none⟩⟩]]).events
      = [withUid ⟨some "FOMC Meeting Minutes", some "Impact: Medium - Federal Reserve meeting", some "2024-01-03 19:00:00+00:00", some "USD", none⟩]
    ∧ (filter_enhanced_events
        [some [⟨"VEVENT", ⟨some "FOMC Meeting Minutes", some "Impact: Medium - Federal Reserve meeting", some "2024-01-03 19:00:00+00:00", some "USD", none⟩⟩],
         some [⟨"VEVENT", ⟨some "FOMC Meeting Minutes", some "Impact: Medium - Federal Reserve meeting", some "2024-01-03 19:00:00+00:00", some "USD", none⟩⟩]]).total_included = 1
    ∧ (filter_enhanced_events
        [some [⟨"VEVENT", ⟨some "FOMC Meeting Minutes", some "Impact: Medium - Federal Reserve meeting", some "2024-01-03 19:00:00+00:00", some "USD", none⟩⟩],
         some [⟨"VEVENT", ⟨some "FOMC Meeting Minutes", some "Impact: Medium - Federal Reserve meeting", some "2024-01-03 19:00:00+00:00", some "USD", none⟩⟩]]).total_events = 2 :=
  C6_identical_across_windows
    ⟨some "FOMC Meeting Minutes", some "Impact: Medium - Federal Reserve meeting", some "2024-01-03 19:00:00+00:00", some "USD", none⟩
    rfl (by decide)
